import Mathlib

set_option maxHeartbeats 1000000
set_option maxRecDepth 8000

/- Verification of gnomad_qc/v3/create_release/prepare_vcf_data_release.py:
   the annotation-flattening and VCF-header metadata-synthesis engine.
   Python dictionaries are embedded as ordered association lists with
   Python dict semantics (insertion keeps position of existing keys, update
   overwrites silently); Hail expressions are embedded as the values they
   evaluate to per row, with missing values explicit. Numeric annotation
   values are only relocated by this module, never computed with, so the
   carrier of fractional values is ℚ. -/

namespace GnomadQc

/-- Association lists standing in for Python dictionaries: ordered key/value
pairs; all operations below implement Python dict semantics. -/
abbrev Dict (α : Type) := List (String × α)

/-- Keys of a dictionary, in insertion order. -/
def keysOf {α : Type} (d : Dict α) : List String := d.map Prod.fst

/-- Lookup of a key in a dictionary (first matching entry). -/
def dlookup {α : Type} (k : String) : Dict α → Option α
  | [] => none
  | p :: ps => if p.1 = k then some p.2 else dlookup k ps

/-- Python dict assignment `d[k] = v`: an existing key keeps its position and
gets the new value, a fresh key is appended at the end. -/
def pyInsert {α : Type} (d : Dict α) (kv : String × α) : Dict α :=
  if kv.1 ∈ keysOf d then d.map (fun p => if p.1 = kv.1 then kv else p) else d ++ [kv]

/-- Python `d.update(e)`: assign every entry of `e` into `d`, left to right. -/
def pyUpdate {α : Type} (d e : Dict α) : Dict α := e.foldl pyInsert d

/-- Python `d.pop(k, None)`: remove the entry with key `k` when present. -/
def pyPop {α : Type} (d : Dict α) (k : String) : Dict α :=
  d.filter (fun p => decide (p.1 ≠ k))

/-- The adjusted-group qualifier that `main` strips from header field names
(src line 433). -/
def ADJS : String := "_adj"

/-- Character-list form of the qualifier. -/
def ADJ : List Char := ADJS.data

/-- Model of Python `str.replace("_adj", "")` on the character list: scan left
to right, removing each non-overlapping occurrence of `_adj` (src line 433). -/
def stripAdjL : List Char → List Char
  | [] => []
  | '_' :: 'a' :: 'd' :: 'j' :: rest => stripAdjL rest
  | c :: rest => c :: stripAdjL rest

/-- Model of the key rename `i.replace("_adj", "")` from src line 433. -/
def stripAdj (s : String) : String := String.mk (stripAdjL s.data)

/-- The rename as the spec sentence describes it: drop `_adj` only when it is
an exact suffix of the name, otherwise leave the name unchanged. -/
def suffixStripAdjSpec (s : String) : String :=
  if ADJ.isSuffixOf s.data then String.mk (s.data.take (s.data.length - 4)) else s

/-- Does the pattern occur as a contiguous run inside the list? -/
def containsSeqL (pat : List Char) : List Char → Bool
  | [] => pat.isPrefixOf []
  | c :: rest => pat.isPrefixOf (c :: rest) || containsSeqL pat rest

/-- Does `_adj` occur anywhere in the string? -/
def containsAdj (s : String) : Bool := containsSeqL ADJ s.data

/-- The module-level field-list globals imported from gnomad.utils.vcf
(src lines 15-34); the lists are configuration data of the external library,
so they are carried as a parameter record. -/
structure VcfFieldGlobals where
  ALLELE_TYPE_FIELDS : List String
  REGION_FLAG_FIELDS : List String
  SITE_FIELDS : List String
  AS_FIELDS : List String
  VQSR_FIELDS : List String
  HISTS : List String
deriving DecidableEq

/-- The import-time mutations of the shared field lists (src lines 50-64):
`remove` of one element each from the allele-type, region-flag, site and
allele-specific lists. Python `list.remove` drops the first occurrence;
`List.erase` does the same (Python would raise when the element is absent,
which the claims never exercise). -/
def moduleFieldRemovals (g : VcfFieldGlobals) : VcfFieldGlobals :=
  ⟨g.ALLELE_TYPE_FIELDS.erase ("original_alleles"),
   g.REGION_FLAG_FIELDS.erase ("decoy"),
   (g.SITE_FIELDS.erase ("BaseQRankSum")).erase ("SOR"),
   (g.AS_FIELDS.erase ("AS_BaseQRankSum")).erase ("AS_SOR"),
   g.VQSR_FIELDS,
   g.HISTS⟩

/-- Missing region field flag removed from the vcf info dict (src line 56).
It is a plain string, and `populate_info_dict` iterates over it. -/
def MISSING_REGION_FIELDS : String := "decoy"

/-- Sample sexes used in VCF export (src line 76). -/
def SEXES : List String := ["XX", "XY"]

/-- Sample subsets of the dataset (src lines 79-87). -/
def SUBSET_LIST : List String :=
  ["controls_and_biobanks", "non_cancer", "non_neuro", "non_topmed", "non_v2", "hgdp", "tgp"]

/-- A label-group dictionary: the selected values per stratification
dimension, an empty list meaning the dimension is absent (src lines 174-191
pass Python dicts with a subset of the keys group/pop/sex). -/
structure LabelGroup where
  group : List String
  pop : List String
  sex : List String
deriving DecidableEq

/-- The four stratum shapes generated by `_create_label_groups`
(src lines 174-191): all groups, group x sex, group x pop, group x pop x sex. -/
def _create_label_groups (pops : List String) (sexes : List String)
    (groups : List String) (grp : List String) : List LabelGroup :=
  [⟨groups, [], []⟩, ⟨grp, [], sexes⟩, ⟨grp, pops, []⟩, ⟨grp, pops, sexes⟩]

/-- Modelled from the spec: `make_label_combos` of gnomad.utils.vcf is not in
src/. Per the spec data model a stratum key is the ordered tuple of taxonomy
selections joined with underscores in the order pop, sex, group, with absent
dimensions omitted. -/
def label_combos (lg : LabelGroup) : List String :=
  let popPart : List (List String) := if lg.pop.isEmpty then [[]] else lg.pop.map (fun p => [p])
  let sexPart : List (List String) := if lg.sex.isEmpty then [[]] else lg.sex.map (fun s => [s])
  let grpPart : List (List String) := if lg.group.isEmpty then [[]] else lg.group.map (fun x => [x])
  (popPart.flatMap (fun p => sexPart.flatMap (fun s => grpPart.map (fun x => p ++ s ++ x)))).map
    (fun parts => String.intercalate ("_") parts)

/-- Modelled from the spec: `make_info_dict` of gnomad.utils.vcf is not in
src/. For each concrete stratum combo it synthesises the four frequency
metric entries (or the two filtering-allele-frequency entries when `faf` is
set), named metric-subset-combo; with `popmax` set it instead synthesises the
five popmax fields and the eight age-histogram fields. Description strings
are abstracted to combo-determined text (the display-name interpolation of
`pop_names` does not bear on any claim). -/
def make_info_dict (subsetName : String) (pop_names : List (String × String))
    (label_groups : Option LabelGroup) (faf : Bool) (popmax : Bool)
    (bin_edges : Dict String) (age_hist_data : String) (description_text : String) :
    Dict String :=
  let pre := if subsetName = "" then "" else subsetName ++ "-"
  if popmax then
    [(pre ++ "popmax", "Population with the maximum allele frequency"),
     (pre ++ "AC_popmax", "Allele count in the population with the maximum allele frequency"),
     (pre ++ "AN_popmax", "Total number of alleles in the population with the maximum allele frequency"),
     (pre ++ "AF_popmax", "Maximum allele frequency across populations"),
     (pre ++ "nhomalt_popmax", "Count of homozygous individuals in the population with the maximum allele frequency"),
     (pre ++ "age_hist_het_bin_freq", "Histogram of ages of heterozygous individuals: " ++ age_hist_data),
     (pre ++ "age_hist_het_bin_edges", "Bin edges for the age histogram of heterozygous individuals"),
     (pre ++ "age_hist_het_n_smaller", "Count of age values below the lowest histogram bin edge for heterozygous individuals"),
     (pre ++ "age_hist_het_n_larger", "Count of age values above the highest histogram bin edge for heterozygous individuals"),
     (pre ++ "age_hist_hom_bin_freq", "Histogram of ages of homozygous alternate individuals: " ++ age_hist_data),
     (pre ++ "age_hist_hom_bin_edges", "Bin edges for the age histogram of homozygous alternate individuals"),
     (pre ++ "age_hist_hom_n_smaller", "Count of age values below the lowest histogram bin edge for homozygous alternate individuals"),
     (pre ++ "age_hist_hom_n_larger", "Count of age values above the highest histogram bin edge for homozygous alternate individuals")]
  else
    match label_groups with
    | none => []
    | some lg =>
      (label_combos lg).flatMap (fun combo =>
        if faf then
          [("faf95-" ++ pre ++ combo,
            "Filtering allele frequency at the 95 percent level for " ++ combo ++ " samples" ++ description_text),
           ("faf99-" ++ pre ++ combo,
            "Filtering allele frequency at the 99 percent level for " ++ combo ++ " samples" ++ description_text)]
        else
          [("AC-" ++ pre ++ combo, "Alternate allele count for " ++ combo ++ " samples" ++ description_text),
           ("AN-" ++ pre ++ combo, "Total number of alleles for " ++ combo ++ " samples" ++ description_text),
           ("AF-" ++ pre ++ combo, "Alternate allele frequency for " ++ combo ++ " samples" ++ description_text),
           ("nhomalt-" ++ pre ++ combo, "Count of homozygous individuals for " ++ combo ++ " samples" ++ description_text)])

/-- Modelled from the spec: `add_as_info_dict` of gnomad.utils.vcf is not in
src/. Synthesises an allele-specific metadata entry per requested field (the
description text it derives from the base entries of `info_dict` does not
bear on any claim). -/
def add_as_info_dict (info_dict : Dict String) (as_fields : List String) : Dict String :=
  as_fields.map (fun f => (f, "Allele-specific " ++ f))

/-- Modelled from the spec: `make_hist_dict` of gnomad.utils.vcf is not in
src/. Emits the four field kinds per variant-quality histogram, appending
_raw to the histogram name when `adj` is false. -/
def make_hist_dict (bin_edges : Dict String) (adj : Bool) : Dict String :=
  bin_edges.flatMap (fun he =>
    let hn := if adj then he.1 else he.1 ++ "_raw"
    [(hn ++ "_bin_freq", "Histogram of " ++ he.1 ++ " with bin edges " ++ he.2),
     (hn ++ "_bin_edges", "Bin edges for the histogram of " ++ he.1),
     (hn ++ "_n_smaller", "Count of values below the lowest histogram bin edge of " ++ he.1),
     (hn ++ "_n_larger", "Count of values above the highest histogram bin edge of " ++ he.1)])

/-- The INFO-dictionary synthesis of src lines 128-231. The function mutates
the Python dict object passed as `info_dict` in place (line 160 binds it
without copying, lines 163-164 pop from it and every later step updates it),
so the returned dictionary is also the post-call state of the caller's
`info_dict` object. The module globals are the record `g`; `AS_FIELDS` is
copied before being extended (src line 168), so the global list itself is
only read. -/
def populate_info_dict (g : VcfFieldGlobals) (bin_edges : Dict String)
    (age_hist_data : String) (info_dict : Dict String) (subset_list : List String)
    (groups : List String) (pops : List (String × String)) (faf_pops : List String)
    (sexes : List String) : Dict String :=
  let vcf_info_dict := info_dict
  let vcf_info_dict :=
    MISSING_REGION_FIELDS.data.foldl (fun d c => pyPop d (String.mk [c])) vcf_info_dict
  let temp_AS_fields := g.AS_FIELDS ++ ["AS_culprit", "AS_VQSLOD"]
  let vcf_info_dict := pyUpdate vcf_info_dict (add_as_info_dict vcf_info_dict temp_AS_fields)
  let vcf_info_dict := subset_list.foldl (fun d subset =>
    let description_text := if subset = "" then "" else " in " ++ subset ++ " subset"
    let d := (_create_label_groups (pops.map Prod.fst) sexes groups (["adj"])).foldl
      (fun d lg => pyUpdate d
        (make_info_dict subset pops (some lg) false false bin_edges age_hist_data description_text)) d
    let d := (_create_label_groups faf_pops sexes groups (["adj"])).foldl
      (fun d lg => pyUpdate d
        (make_info_dict subset pops (some lg) true false bin_edges age_hist_data description_text)) d
    pyUpdate d (make_info_dict subset pops none false true bin_edges
      (String.intercalate ("|") (age_hist_data.data.map Char.toString)) (""))) vcf_info_dict
  let vcf_info_dict := pyUpdate vcf_info_dict (make_hist_dict bin_edges true)
  pyUpdate vcf_info_dict (make_hist_dict bin_edges false)

/-- A per-row annotation value: the value a Hail expression takes on one
variant row. Fractional statistics are carried as ℚ since this module only
relocates them. -/
inductive Value
  | int : Int → Value
  | real : ℚ → Value
  | str : String → Value
  | missing : Value
deriving DecidableEq

/-- One histogram struct (bin_freq, bin_edges, n_smaller, n_larger). -/
structure Hist where
  bin_freq : List Int
  bin_edges : List ℚ
  n_smaller : Int
  n_larger : Int
deriving DecidableEq

/-- Rendering of a rational bin edge for the delimited string fields. -/
def ratStr (q : ℚ) : String := toString q.num ++ "/" ++ toString q.den

/-- An empty histogram used as the default when a named histogram is absent
from the row model. -/
def emptyHist : Hist := ⟨[], [], 0, 0⟩

/-- One element of the `freq` array. -/
structure FreqEntry where
  AC : Int
  AN : Int
  AF : ℚ
  homozygote_count : Int
deriving DecidableEq

/-- One element of the `faf` array. -/
structure FafEntry where
  faf95 : ℚ
  faf99 : ℚ
deriving DecidableEq

/-- The popmax summary struct. -/
structure PopmaxEntry where
  pop : String
  AC : Int
  AN : Int
  AF : ℚ
  homozygote_count : Int
deriving DecidableEq

/-- The part of the annotation model read by `unfurl_nested_annotations`:
the two global label-to-position index dictionaries, the positional arrays
they point into, the popmax summary and the two age histograms. -/
structure AnnModel where
  freq_index_dict : List (String × Nat)
  faf_index_dict : List (String × Nat)
  freq : List FreqEntry
  faf : List FafEntry
  popmax : PopmaxEntry
  age_hist_het : Hist
  age_hist_hom : Hist
deriving DecidableEq

/-- A genomic locus (contig and position). -/
structure Locus where
  contig : String
  position : Nat
deriving DecidableEq

/-- The full per-row model read by `make_info_expr` and the main pipeline:
the unfurl model plus the structured row fields. A field absent from one of
the struct dictionaries reads as missing. -/
structure SiteModel extends AnnModel where
  locus : Locus
  allele_info : Dict Value
  region_flag : Dict Value
  info : Dict Value
  vqsr : Dict Value
  qual_hists : List (String × Hist)
  raw_qual_hists : List (String × Hist)
  vep : String
deriving DecidableEq

/-- Reading a named field of a row struct (missing when absent). -/
def lookupV (d : Dict Value) (f : String) : Value := (dlookup f d).getD Value.missing

/-- The four flat entries per quality histogram emitted by `make_info_expr`
(src lines 264-273): delimited bin frequencies and edges plus the two
boundary counts. -/
def hist_fields (hist_name : String) (h : Hist) : Dict Value :=
  [(hist_name ++ "_bin_freq", Value.str (String.intercalate ("|") (h.bin_freq.map toString))),
   (hist_name ++ "_bin_edges", Value.str (String.intercalate ("|") (h.bin_edges.map ratStr))),
   (hist_name ++ "_n_smaller", Value.int h.n_smaller),
   (hist_name ++ "_n_larger", Value.int h.n_larger)]

/-- The INFO expression dictionary of src lines 234-275: fixed field lists
projected from the allele_info, region_flag, info, vqsr structs, then the
quality histograms in adjusted and raw variants (`_raw` appended only on the
raw branch). -/
def make_info_expr (g : VcfFieldGlobals) (t : SiteModel) : Dict Value :=
  let d : Dict Value := []
  let d := g.ALLELE_TYPE_FIELDS.foldl (fun d f => pyInsert d (f, lookupV t.allele_info f)) d
  let d := g.REGION_FLAG_FIELDS.foldl (fun d f => pyInsert d (f, lookupV t.region_flag f)) d
  let d := g.SITE_FIELDS.foldl (fun d f => pyInsert d (f, lookupV t.info f)) d
  let d := g.VQSR_FIELDS.foldl (fun d f => pyInsert d (f, lookupV t.vqsr f)) d
  let d := g.AS_FIELDS.foldl (fun d f => pyInsert d (f, lookupV t.info f)) d
  g.HISTS.foldl (fun d hist =>
    let d := pyUpdate d (hist_fields hist ((dlookup hist t.qual_hists).getD emptyHist))
    pyUpdate d (hist_fields (hist ++ "_raw") ((dlookup hist t.raw_qual_hists).getD emptyHist))) d

/-- The four per-combo frequency entries of src lines 310-315, read from the
freq array at the resolved position (an out-of-range position reads as
missing). -/
def freq_combo_dict (t : AnnModel) (combo : String) (i : Nat) : Dict Value :=
  [("AC-" ++ combo, ((t.freq.get? i).map (fun e => Value.int e.AC)).getD Value.missing),
   ("AN-" ++ combo, ((t.freq.get? i).map (fun e => Value.int e.AN)).getD Value.missing),
   ("AF-" ++ combo, ((t.freq.get? i).map (fun e => Value.real e.AF)).getD Value.missing),
   ("nhomalt-" ++ combo, ((t.freq.get? i).map (fun e => Value.int e.homozygote_count)).getD Value.missing)]

/-- The two per-label faf entries of src lines 324-327. -/
def faf_combo_dict (t : AnnModel) (k : String) (i : Nat) : Dict Value :=
  [("faf95-" ++ k, ((t.faf.get? i).map (fun e => Value.real e.faf95)).getD Value.missing),
   ("faf99-" ++ k, ((t.faf.get? i).map (fun e => Value.real e.faf99)).getD Value.missing)]

/-- The five popmax entries of src lines 330-336, copied from the popmax
summary struct. -/
def popmax_combo_dict (t : AnnModel) : Dict Value :=
  [("popmax", Value.str t.popmax.pop),
   ("AC_popmax", Value.int t.popmax.AC),
   ("AN_popmax", Value.int t.popmax.AN),
   ("AF_popmax", Value.real t.popmax.AF),
   ("nhomalt_popmax", Value.int t.popmax.homozygote_count)]

/-- The eight age-histogram entries of src lines 340-349. -/
def age_hist_dict (t : AnnModel) : Dict Value :=
  [("age_hist_het_bin_freq", Value.str (String.intercalate ("|") (t.age_hist_het.bin_freq.map toString))),
   ("age_hist_het_bin_edges", Value.str (String.intercalate ("|") (t.age_hist_het.bin_edges.map ratStr))),
   ("age_hist_het_n_smaller", Value.int t.age_hist_het.n_smaller),
   ("age_hist_het_n_larger", Value.int t.age_hist_het.n_larger),
   ("age_hist_hom_bin_freq", Value.str (String.intercalate ("|") (t.age_hist_hom.bin_freq.map toString))),
   ("age_hist_hom_bin_edges", Value.str (String.intercalate ("|") (t.age_hist_hom.bin_edges.map ratStr))),
   ("age_hist_hom_n_smaller", Value.int t.age_hist_hom.n_smaller),
   ("age_hist_hom_n_larger", Value.int t.age_hist_hom.n_larger)]

/-- The unfurling pass of src lines 278-352: per freq-index label the four
frequency fields, per faf-index label the two faf fields, the five popmax
fields and the eight age-histogram fields, accumulated by dict update. The
`pops` parameter is accepted (src line 279) but never read by the body. -/
def unfurl_nested_annotations (t : AnnModel) (pops : List (String × String)) : Dict Value :=
  let expr_dict : Dict Value := []
  let expr_dict :=
    t.freq_index_dict.foldl (fun d ki => pyUpdate d (freq_combo_dict t ki.1 ki.2)) expr_dict
  let expr_dict :=
    t.faf_index_dict.foldl (fun d ki => pyUpdate d (faf_combo_dict t ki.1 ki.2)) expr_dict
  let expr_dict := pyUpdate expr_dict (popmax_combo_dict t)
  pyUpdate expr_dict (age_hist_dict t)

/-- Is the key one of the four frequency-derived stratum fields
(AC-, AN-, AF-, nhomalt- followed by a combo label)? -/
def isFreqKeyL : List Char → Bool
  | 'A' :: 'C' :: '-' :: _ => true
  | 'A' :: 'N' :: '-' :: _ => true
  | 'A' :: 'F' :: '-' :: _ => true
  | 'n' :: 'h' :: 'o' :: 'm' :: 'a' :: 'l' :: 't' :: '-' :: _ => true
  | _ => false

/-- String form of the frequency-derived key test. -/
def isFreqKey (s : String) : Bool := isFreqKeyL s.data

/-- Is the key one of the two filtering-allele-frequency stratum fields? -/
def isFafKeyL : List Char → Bool
  | 'f' :: 'a' :: 'f' :: '9' :: '5' :: '-' :: _ => true
  | 'f' :: 'a' :: 'f' :: '9' :: '9' :: '-' :: _ => true
  | _ => false

/-- String form of the faf-derived key test. -/
def isFafKey (s : String) : Bool := isFafKeyL s.data

/-- Is the key a per-population stratum field (frequency- or faf-derived)? -/
def isStratumKey (s : String) : Bool := isFreqKey s || isFafKey s

/-- The five popmax-derived flat field names. -/
def popmaxNames : List String :=
  ["popmax", "AC_popmax", "AN_popmax", "AF_popmax", "nhomalt_popmax"]

/-- Is the key one of the five popmax-derived field names? -/
def isPopmaxName (s : String) : Bool := decide (s ∈ popmaxNames)

/-- Discriminator for the four frequency-metric key shapes, used to separate
differently prefixed keys in proofs. -/
def metricTagL : List Char → Nat
  | 'A' :: 'C' :: '-' :: _ => 0
  | 'A' :: 'N' :: '-' :: _ => 1
  | 'A' :: 'F' :: '-' :: _ => 2
  | 'n' :: 'h' :: 'o' :: 'm' :: 'a' :: 'l' :: 't' :: '-' :: _ => 3
  | _ => 4

/-- String form of the metric-shape discriminator. -/
def metricTag (s : String) : Nat := metricTagL s.data

/-- Character-list form of the female-sex marker XX. -/
def XXL : List Char := "XX".data

/-- Does the stratum label inside the key carry the female-sex marker? A
count-bearing or frequency field of a female stratum is a frequency-derived
key whose label contains XX. -/
def isFemaleMetricKey (k : String) : Bool := containsSeqL XXL k.data && isFreqKey k

/-- A flattened variant row: its locus and its flat info record. -/
structure Row where
  locus : Locus
  info : Dict Value
deriving DecidableEq

/-- Modelled from the spec: `set_female_y_metrics_to_na` of gnomad.utils.vcf
is not in src/. Per spec sections 4.5 and 8, on Y-chromosome loci every
count-bearing or frequency field of a female-labelled stratum is forced to
missing; rows on other contigs are left unchanged. -/
def set_female_y_metrics_to_na (r : Row) : Row :=
  if r.locus.contig = "chrY" then
    ⟨r.locus, r.info.map (fun p => if isFemaleMetricKey p.1 then (p.1, Value.missing) else p)⟩
  else r

/-- The flat record as built by `main` just before the normalizer runs
(src lines 406-411): the info expression dict updated with the unfurled
annotations. -/
def vcfPreparedRow (g : VcfFieldGlobals) (t : SiteModel) (pops : List (String × String)) : Row :=
  ⟨t.locus, pyUpdate (make_info_expr g t) (unfurl_nested_annotations t.toAnnModel pops)⟩

/-- The flat record after the sex-chromosome normalization of src line 412. -/
def vcfNormalizedRow (g : VcfFieldGlobals) (t : SiteModel) (pops : List (String × String)) : Row :=
  set_female_y_metrics_to_na (vcfPreparedRow g t pops)

/-- The fixed VEP annotation ordering (src line 66). -/
def VEP_CSQ_FIELDS : String :=
  "Allele|Consequence|IMPACT|SYMBOL|Gene|Feature_type|Feature|BIOTYPE|EXON|INTRON|HGVSc|HGVSp|cDNA_position|CDS_position|Protein_position|Amino_acids|Codons|ALLELE_NUM|DISTANCE|STRAND|VARIANT_CLASS|MINIMISED|SYMBOL_SOURCE|HGNC_ID|CANONICAL|TSL|APPRIS|CCDS|ENSP|SWISSPROT|TREMBL|UNIPARC|GENE_PHENO|SIFT|PolyPhen|DOMAINS|HGVS_OFFSET|MOTIF_NAME|MOTIF_POS|HIGH_INF_POS|MOTIF_SCORE_CHANGE|LoF|LoF_filter|LoF_flags|LoF_info"

/-- The VEP header description (src line 71). -/
def VEP_CSQ_HEADER : String :=
  "Consequence annotations from Ensembl VEP. Format: " ++ VEP_CSQ_FIELDS

/-- The header-key rename of src lines 432-434: a Python dict comprehension
mapping every key through `replace("_adj", "")`; a key keeps the position of
its first stripped occurrence and a later colliding key silently overwrites
the value. -/
def new_vcf_info_dict (vcf_info_dict : Dict String) : Dict String :=
  vcf_info_dict.foldl (fun acc p => pyInsert acc (stripAdj p.1, p.2)) []

/-- The info section of the header dict as `main` builds it (src lines
386-439): the synthesized info dict, the vep entry (line 422), then the
rename (lines 432-434). -/
def header_info_dict (g : VcfFieldGlobals) (bin_edges : Dict String)
    (age_hist_data : String) (info_dict : Dict String) (subset_list : List String)
    (groups : List String) (pops : List (String × String)) (faf_pops : List String)
    (sexes : List String) : Dict String :=
  let vcf_info_dict :=
    populate_info_dict g bin_edges age_hist_data info_dict subset_list groups pops faf_pops sexes
  let vcf_info_dict := pyUpdate vcf_info_dict [("vep", VEP_CSQ_HEADER)]
  new_vcf_info_dict vcf_info_dict

/-- The info section of the flattened record as `main` builds it (src lines
406-417): info expression dict, unfurled annotations, then the vep entry. -/
def record_info_dict (g : VcfFieldGlobals) (t : SiteModel)
    (pops : List (String × String)) : Dict Value :=
  pyUpdate (pyUpdate (make_info_expr g t) (unfurl_nested_annotations t.toAnnModel pops))
    [("vep", Value.str t.vep)]

/-- Field globals with all lists empty, for the concrete instances below. -/
def gEmpty : VcfFieldGlobals := ⟨[], [], [], [], [], []⟩

/-- The synthetic annotation model of the spec's frequency-unfurling example:
index mapping afr_adj to 0 and eas_adj to 1 over the stated two-entry array. -/
def tExample : AnnModel :=
  ⟨[("afr_adj", 0), ("eas_adj", 1)], [],
   [⟨10, 100, 1/10, 2⟩, ⟨4, 50, 2/25, 0⟩], [],
   ⟨"afr", 10, 100, 1/10, 2⟩, emptyHist, emptyHist⟩

/-- A tiny population taxonomy. -/
def popsTiny : List (String × String) := [("afr", "African")]

/-- A synthetic autosomal row over a one-label frequency mapping. -/
def tRowC2 : SiteModel :=
  ⟨⟨[("afr_adj", 0)], [], [⟨10, 100, 1/10, 2⟩], [],
    ⟨"afr", 10, 100, 1/10, 2⟩, emptyHist, emptyHist⟩,
   ⟨"chr1", 100⟩, [], [], [], [], [], [], ""⟩

/-- The header info section built from the same tiny taxonomies as `tRowC2`. -/
def headerC2 : Dict String :=
  header_info_dict gEmpty [] ("") [] ([""]) (["adj", "raw"]) popsTiny [] (["XX"])

/-- The record info section built from `tRowC2`. -/
def recordC2 : Dict Value := record_info_dict gEmpty tRowC2 popsTiny

/-- A synthetic Y-chromosome row carrying a female-labelled stratum. -/
def tYrow : SiteModel :=
  ⟨⟨[("afr_XX_adj", 0)], [], [⟨10, 100, 1/10, 2⟩], [],
    ⟨"afr", 1, 2, 1/2, 0⟩, emptyHist, emptyHist⟩,
   ⟨"chrY", 2781479⟩, [], [], [], [], [], [], ""⟩

/-- The same synthetic row placed on an autosome. -/
def tAutoRow : SiteModel :=
  ⟨⟨[("afr_XX_adj", 0)], [], [⟨10, 100, 1/10, 2⟩], [],
    ⟨"afr", 1, 2, 1/2, 0⟩, emptyHist, emptyHist⟩,
   ⟨"chr20", 100⟩, [], [], [], [], [], [], ""⟩

/-- The generated entries of the first label-group update for a tiny
taxonomy; its AC-raw entry collides with a pre-existing one in the C3
instances. -/
def genC3 : Dict String :=
  make_info_dict ("") popsTiny (some ⟨["adj", "raw"], [], []⟩) false false [] ("") ("")

/- ================= Theorems ================= -/

theorem stripAdjL_of_not_contains (l : List Char) (h : containsSeqL ADJ l = false) :
    stripAdjL l = l := by
  induction l using stripAdjL.induct with
  | case1 => rfl
  | case2 rest ih =>
      simp [containsSeqL, ADJ, List.isPrefixOf] at h
  | case3 c rest hne ih =>
      simp only [containsSeqL, Bool.or_eq_false_iff] at h
      rw [stripAdjL.eq_3 c rest hne, ih h.2]

theorem stripAdjL_append (a b : List Char) (h : containsSeqL ADJ a = false) :
    stripAdjL (a ++ ADJ ++ b) = a ++ stripAdjL b := by
  induction a with
  | nil =>
      show stripAdjL (ADJ ++ b) = stripAdjL b
      rw [show ADJ ++ b = '_' :: 'a' :: 'd' :: 'j' :: b from rfl, stripAdjL.eq_2]
  | cons c a2 ih =>
      simp only [containsSeqL, Bool.or_eq_false_iff] at h
      have heq : stripAdjL (c :: (a2 ++ ADJ ++ b)) = c :: stripAdjL (a2 ++ ADJ ++ b) := by
        apply stripAdjL.eq_3
        intro r hcc hr
        rcases a2 with _ | ⟨x, _ | ⟨y, _ | ⟨z, a3⟩⟩⟩
        · rw [List.nil_append, show ADJ ++ b = '_' :: 'a' :: 'd' :: 'j' :: b from rfl] at hr
          simp at hr
        · rw [show ([x] : List Char) ++ ADJ ++ b = x :: '_' :: 'a' :: 'd' :: 'j' :: b from rfl] at hr
          simp at hr
        · rw [show ([x, y] : List Char) ++ ADJ ++ b = x :: y :: '_' :: 'a' :: 'd' :: 'j' :: b from rfl] at hr
          simp at hr
        · simp only [List.cons_append, List.cons.injEq] at hr
          obtain ⟨hx, hy, hz, _⟩ := hr
          subst hcc hx hy hz
          have h1 := h.1
          simp [ADJ, List.isPrefixOf] at h1
      rw [show (c :: a2) ++ ADJ ++ b = c :: (a2 ++ ADJ ++ b) by simp, heq, ih h.2]
      simp

theorem stripAdjL_length_le (l : List Char) : (stripAdjL l).length ≤ l.length := by
  induction l using stripAdjL.induct with
  | case1 => simp [stripAdjL]
  | case2 rest ih => rw [stripAdjL.eq_2]; simp; omega
  | case3 c rest hne ih => rw [stripAdjL.eq_3 c rest hne]; simpa using ih

theorem stripAdjL_length_lt (l : List Char) (h : containsSeqL ADJ l = true) :
    (stripAdjL l).length < l.length := by
  induction l using stripAdjL.induct with
  | case1 => simp [containsSeqL, ADJ, List.isPrefixOf] at h
  | case2 rest ih =>
      rw [stripAdjL.eq_2]
      have := stripAdjL_length_le rest
      simp
      omega
  | case3 c rest hne ih =>
      simp only [containsSeqL, Bool.or_eq_true] at h
      rcases h with h | h
      · rw [List.isPrefixOf_iff_prefix] at h
        obtain ⟨t, ht⟩ := h
        rw [show ADJ = '_' :: 'a' :: 'd' :: 'j' :: ([] : List Char) from rfl] at ht
        simp only [List.cons_append, List.nil_append, List.cons.injEq] at ht
        exact (hne t ht.1.symm ht.2.symm).elim
      · rw [stripAdjL.eq_3 c rest hne]
        simpa using ih h

theorem sapp_data (a b : String) : (a ++ b).data = a.data ++ b.data := by
  cases a
  cases b
  rfl

theorem mk_append (a : String) (l : List Char) :
    a ++ String.mk l = String.mk (a.data ++ l) := by
  cases a
  rfl

/-- C1 counterexample: on a name that contains the qualifier only as an
interior substring, the code's rename differs from the exact-suffix rename
the claim describes (the code yields sizeusted, the claim demands the name
be left unchanged). -/
theorem C1_exact_suffix_counterexample :
    stripAdj ("size_adjusted") ≠ suffixStripAdjSpec ("size_adjusted") := by decide

/-- C1 (amended): the rename of src line 433 removes every left-to-right
occurrence of the substring _adj from a field name, not only an exact
suffix: prefixing any qualifier-free text to an occurrence strips that
occurrence wherever it sits, so a trailing occurrence is dropped (b empty)
but interior occurrences are removed as well. -/
theorem C1_rename_strips_every_occurrence (a b : String) (h : containsAdj a = false) :
    stripAdj (a ++ ADJS ++ b) = a ++ stripAdj b := by
  have hd : (a ++ ADJS ++ b).data = a.data ++ ADJ ++ b.data := by
    rw [sapp_data, sapp_data]
    rfl
  have h2 : stripAdjL ((a ++ ADJS ++ b).data) = a.data ++ stripAdjL b.data := by
    rw [hd]
    exact stripAdjL_append a.data b.data h
  show String.mk (stripAdjL ((a ++ ADJS ++ b).data)) = a ++ String.mk (stripAdjL b.data)
  rw [h2, mk_append]

theorem C1_rename_strips_every_occurrence_witness :
    containsAdj ("AC-afr") = false ∧
      stripAdj ("AC-afr" ++ ADJS ++ "_XX") = "AC-afr" ++ stripAdj ("_XX") :=
  ⟨by decide, C1_rename_strips_every_occurrence ("AC-afr") ("_XX") (by decide)⟩

/-- C8 counterexample: stripping is not idempotent, because removing an
occurrence can splice the surrounding fragments into a new occurrence:
x_ad_adjj strips to x_adj, which strips again to x. -/
theorem C8_strip_not_idempotent_counterexample :
    stripAdj (stripAdj ("x_ad_adjj")) ≠ stripAdj ("x_ad_adjj") := by decide

/-- C8 (amended): the strip operation of src line 433 is idempotent on
exactly those names whose once-stripped form contains no further _adj
occurrence; in general a second application can strip further, so
idempotence fails. -/
theorem C8_strip_idempotent_iff (n : String) :
    stripAdj (stripAdj n) = stripAdj n ↔ containsAdj (stripAdj n) = false := by
  constructor
  · intro h
    by_contra hc
    have hc2 : containsSeqL ADJ (stripAdjL n.data) = true := by
      revert hc
      simp [containsAdj, stripAdj]
    have hlt := stripAdjL_length_lt _ hc2
    have hlen : (stripAdjL (stripAdjL n.data)).length = (stripAdjL n.data).length :=
      congrArg (fun s => s.data.length) h
    omega
  · intro h
    show String.mk (stripAdjL (String.mk (stripAdjL n.data)).data) = String.mk (stripAdjL n.data)
    exact congrArg String.mk (stripAdjL_of_not_contains _ h)

theorem C8_strip_idempotent_iff_witness :
    containsAdj (stripAdj ("AC-afr_adj")) = false ∧
      stripAdj (stripAdj ("AC-afr_adj")) = stripAdj ("AC-afr_adj") :=
  ⟨by decide, (C8_strip_idempotent_iff ("AC-afr_adj")).mpr (by decide)⟩

/-- C10: the output of `unfurl_nested_annotations` does not depend on its
`pops` argument; the body (src lines 292-352) reads only the annotation
model. -/
theorem C10_unfurl_independent_of_pops (t : AnnModel)
    (pops1 pops2 : List (String × String)) :
    unfurl_nested_annotations t pops1 = unfurl_nested_annotations t pops2 := rfl

theorem keysOf_pyInsert {α : Type} (d : Dict α) (kv : String × α) :
    keysOf (pyInsert d kv)
      = if kv.1 ∈ keysOf d then keysOf d else keysOf d ++ [kv.1] := by
  unfold pyInsert
  split
  · unfold keysOf
    rw [List.map_map]
    apply List.map_congr_left
    intro p _
    by_cases hpk : p.1 = kv.1
    · simp [hpk]
    · simp [hpk]
  · simp [keysOf]

theorem mem_keysOf_pyInsert {α : Type} {k : String} (d : Dict α) (kv : String × α)
    (h : k ∈ keysOf d) : k ∈ keysOf (pyInsert d kv) := by
  rw [keysOf_pyInsert]
  split
  · exact h
  · exact List.mem_append_left _ h

theorem mem_keysOf_pyInsert_iff {α : Type} (d : Dict α) (kv : String × α) (k : String) :
    k ∈ keysOf (pyInsert d kv) ↔ k ∈ keysOf d ∨ k = kv.1 := by
  rw [keysOf_pyInsert]
  split
  · rename_i hmem
    constructor
    · exact Or.inl
    · rintro (h | h)
      · exact h
      · exact h ▸ hmem
  · simp

theorem mem_keysOf_pyUpdate {α : Type} {k : String} (d e : Dict α) (h : k ∈ keysOf d) :
    k ∈ keysOf (pyUpdate d e) := by
  induction e generalizing d with
  | nil => exact h
  | cons kv e ih =>
      show k ∈ keysOf (List.foldl pyInsert (pyInsert d kv) e)
      exact ih _ (mem_keysOf_pyInsert d kv h)

theorem mem_keysOf_pyUpdate_elim {α : Type} {k : String} (d e : Dict α)
    (h : k ∈ keysOf (pyUpdate d e)) : k ∈ keysOf d ∨ k ∈ keysOf e := by
  induction e generalizing d with
  | nil => exact Or.inl h
  | cons kv e ih =>
      have h2 : k ∈ keysOf (pyUpdate (pyInsert d kv) e) := h
      rcases ih _ h2 with h3 | h3
      · rcases (mem_keysOf_pyInsert_iff d kv k).mp h3 with h4 | h4
        · exact Or.inl h4
        · right
          simp [keysOf, h4]
      · right
        unfold keysOf at h3 ⊢
        simpa using Or.inr (by simpa [keysOf] using h3)

theorem dlookup_pyPop_ne {α : Type} (d : Dict α) (k k2 : String) (h : k ≠ k2) :
    dlookup k (pyPop d k2) = dlookup k d := by
  induction d with
  | nil => rfl
  | cons p ps ih =>
      by_cases hpk : p.1 = k
      · have hp2 : decide (p.1 ≠ k2) = true := by simp [hpk, h]
        simp [pyPop, List.filter_cons, hp2, dlookup, hpk, h]
      · by_cases hp : p.1 = k2
        · have hp2 : decide (p.1 ≠ k2) = false := by simp [hp]
          simp only [pyPop, List.filter_cons, hp2, Bool.false_eq_true, if_false]
          rw [show dlookup k (p :: ps) = dlookup k ps from by simp [dlookup, hpk]]
          exact ih
        · have hp2 : decide (p.1 ≠ k2) = true := by simp [hp]
          simp only [pyPop, List.filter_cons, hp2, if_true]
          rw [show dlookup k (p :: List.filter (fun q => decide (q.1 ≠ k2)) ps)
                = dlookup k (List.filter (fun q => decide (q.1 ≠ k2)) ps) from by
              simp [dlookup, hpk],
            show dlookup k (p :: ps) = dlookup k ps from by simp [dlookup, hpk]]
          exact ih

theorem mem_keysOf_pyPop {α : Type} (d : Dict α) (k k2 : String) (hne : k ≠ k2)
    (h : k ∈ keysOf d) : k ∈ keysOf (pyPop d k2) := by
  unfold keysOf at h ⊢
  unfold pyPop
  rcases List.mem_map.mp h with ⟨p, hp, hpk⟩
  apply List.mem_map.mpr
  refine ⟨p, ?_, hpk⟩
  apply List.mem_filter.mpr
  refine ⟨hp, ?_⟩
  simp [hpk, hne]

theorem foldl_preserves {α : Type} {β : Type} (P : α → Prop) (f : α → β → α)
    (hf : ∀ a b, P a → P (f a b)) :
    ∀ (l : List β) (a : α), P a → P (l.foldl f a) := by
  intro l
  induction l with
  | nil => exact fun a h => h
  | cons b l ih => exact fun a h => ih _ (hf a b h)

/-- Keys surviving the decoy-character pop loop and every later update of
`populate_info_dict`: any key of the input dict other than the five
single-character popped keys is still a key of the result. -/
theorem populate_preserves_keys (g : VcfFieldGlobals) (bin_edges : Dict String)
    (age_hist_data : String) (info_dict : Dict String) (subset_list groups : List String)
    (pops : List (String × String)) (faf_pops sexes : List String) (k : String)
    (hk : k ∈ keysOf info_dict)
    (hne : k ∉ MISSING_REGION_FIELDS.data.map (fun c => String.mk [c])) :
    k ∈ keysOf (populate_info_dict g bin_edges age_hist_data info_dict subset_list
      groups pops faf_pops sexes) := by
  unfold populate_info_dict
  rw [show MISSING_REGION_FIELDS.data = ['d', 'e', 'c', 'o', 'y'] from rfl] at hne ⊢
  simp only [List.map_cons, List.map_nil, List.mem_cons, List.not_mem_nil] at hne
  push_neg at hne
  apply mem_keysOf_pyUpdate
  apply mem_keysOf_pyUpdate
  apply foldl_preserves (fun d => k ∈ keysOf d)
  · intro d subset hd
    apply mem_keysOf_pyUpdate
    apply foldl_preserves (fun d => k ∈ keysOf d)
    · intro d lg hd2
      exact mem_keysOf_pyUpdate _ _ hd2
    apply foldl_preserves (fun d => k ∈ keysOf d)
    · intro d lg hd2
      exact mem_keysOf_pyUpdate _ _ hd2
    exact hd
  apply mem_keysOf_pyUpdate
  simp only [List.foldl_cons, List.foldl_nil]
  apply mem_keysOf_pyPop _ _ _ hne.2.2.2.2.1
  apply mem_keysOf_pyPop _ _ _ hne.2.2.2.1
  apply mem_keysOf_pyPop _ _ _ hne.2.2.1
  apply mem_keysOf_pyPop _ _ _ hne.2.1
  exact mem_keysOf_pyPop _ _ _ hne.1 hk

/-- C9: `populate_info_dict` never removes a key named decoy. Because
`MISSING_REGION_FIELDS` is the string decoy, the removal loop iterates its
characters and pops only the keys d, e, c, o, y (absent keys being a no-op),
so the removal loop leaves the lookup of decoy unchanged and any existing
decoy entry is still present in the returned dictionary. -/
theorem C9_decoy_key_never_removed (g : VcfFieldGlobals) (bin_edges : Dict String)
    (age_hist_data : String) (info_dict : Dict String) (subset_list groups : List String)
    (pops : List (String × String)) (faf_pops sexes : List String) :
    dlookup ("decoy")
        (MISSING_REGION_FIELDS.data.foldl (fun d c => pyPop d (String.mk [c])) info_dict)
      = dlookup ("decoy") info_dict ∧
    ("decoy" ∈ keysOf info_dict →
      "decoy" ∈ keysOf (populate_info_dict g bin_edges age_hist_data info_dict
        subset_list groups pops faf_pops sexes)) := by
  constructor
  · rw [show MISSING_REGION_FIELDS.data = ['d', 'e', 'c', 'o', 'y'] from rfl]
    simp only [List.foldl_cons, List.foldl_nil]
    rw [dlookup_pyPop_ne _ _ _ (by decide), dlookup_pyPop_ne _ _ _ (by decide),
      dlookup_pyPop_ne _ _ _ (by decide), dlookup_pyPop_ne _ _ _ (by decide),
      dlookup_pyPop_ne _ _ _ (by decide)]
  · intro h
    exact populate_preserves_keys g bin_edges age_hist_data info_dict subset_list
      groups pops faf_pops sexes ("decoy") h (by decide)

theorem C9_decoy_key_never_removed_witness :
    ("decoy" ∈ keysOf ([("decoy", "In a decoy region")] : Dict String)) ∧
      "decoy" ∈ keysOf (populate_info_dict gEmpty [] ("") ([("decoy", "In a decoy region")])
        ([""]) (["adj", "raw"]) popsTiny [] (["XX"])) :=
  ⟨by decide,
    (C9_decoy_key_never_removed gEmpty [] ("") ([("decoy", "In a decoy region")])
      ([""]) (["adj", "raw"]) popsTiny [] (["XX"])).2 (by decide)⟩

/-- C4 counterexample: the flattening pass does mutate its shared input: the
dict object passed as `info_dict` is rebound without copy (src line 160) and
updated in place, so its post-call state, which is the returned dict, differs
from the input already for an empty input dict. -/
theorem C4_input_dict_unchanged_counterexample :
    populate_info_dict gEmpty [] ("") [] [] [] [] [] [] ≠ [] := by decide

/-- C4 (amended): the taxonomy lists are only read by the three functions
(`AS_FIELDS` is copied before being extended, src line 168) and the pass is a
pure function of its inputs, but the metadata table passed as `info_dict` is
mutated in place rather than left unchanged: the object accumulates, keeping
every pre-existing key other than the five popped single-character keys while
generated entries are added to it. -/
theorem C4_populate_mutates_info_dict_in_place (g : VcfFieldGlobals)
    (bin_edges : Dict String) (age_hist_data : String) (info_dict : Dict String)
    (subset_list groups : List String) (pops : List (String × String))
    (faf_pops sexes : List String) (k : String) (hk : k ∈ keysOf info_dict)
    (hne : k ∉ MISSING_REGION_FIELDS.data.map (fun c => String.mk [c])) :
    k ∈ keysOf (populate_info_dict g bin_edges age_hist_data info_dict subset_list
      groups pops faf_pops sexes) :=
  populate_preserves_keys g bin_edges age_hist_data info_dict subset_list groups
    pops faf_pops sexes k hk hne

theorem C4_populate_mutates_info_dict_in_place_witness :
    ("keep_me" ∈ keysOf ([("keep_me", "x")] : Dict String)) ∧
      ("keep_me" ∉ MISSING_REGION_FIELDS.data.map (fun c => String.mk [c])) ∧
      "keep_me" ∈ keysOf (populate_info_dict gEmpty [] ("") ([("keep_me", "x")]) ([""])
        (["adj", "raw"]) popsTiny [] (["XX"])) :=
  ⟨by decide, by decide,
    C4_populate_mutates_info_dict_in_place gEmpty [] ("") ([("keep_me", "x")]) ([""])
      (["adj", "raw"]) popsTiny [] (["XX"]) ("keep_me") (by decide) (by decide)⟩

/-- C3 counterexample: a generated field name colliding with an existing
entry that has a different description does not make the synthesizer fail;
the generated entry silently overwrites the earlier description. -/
theorem C3_collision_silent_overwrite_counterexample :
    dlookup ("AC-raw") (populate_info_dict gEmpty [] ("")
        ([("AC-raw", "ORIGINAL DESCRIPTION")]) ([""]) (["adj", "raw"]) popsTiny [] (["XX"]))
      = some ("Alternate allele count for raw samples") ∧
      ("Alternate allele count for raw samples" : String) ≠ ("ORIGINAL DESCRIPTION") := by
  exact ⟨by decide, by decide⟩

theorem dlookup_append {α : Type} (d e : List (String × α)) (k : String) :
    dlookup k (d ++ e)
      = match dlookup k d with
        | some v => some v
        | none => dlookup k e := by
  induction d with
  | nil => simp [dlookup]
  | cons p ps ih =>
      by_cases hp : p.1 = k
      · simp [dlookup, hp]
      · simp only [List.cons_append, dlookup, if_neg hp]
        exact ih

theorem dlookup_eq_none_of_not_mem {α : Type} (d : Dict α) (k : String)
    (h : k ∉ keysOf d) : dlookup k d = none := by
  induction d with
  | nil => rfl
  | cons p ps ih =>
      have hp : p.1 ≠ k := fun he => h (by simp [keysOf, he])
      have h2 : k ∉ keysOf ps := fun hc => h (by simp [keysOf] at hc ⊢; exact Or.inr hc)
      simp only [dlookup, if_neg hp]
      exact ih h2

theorem dlookup_map_overwrite {α : Type} (ps : List (String × α)) (kv : String × α)
    (hmem : kv.1 ∈ keysOf ps) :
    dlookup kv.1 (ps.map (fun p => if p.1 = kv.1 then kv else p)) = some kv.2 := by
  induction ps with
  | nil => simp [keysOf] at hmem
  | cons p ps ih =>
      by_cases hp : p.1 = kv.1
      · simp [dlookup, hp]
      · have h2 : kv.1 ∈ keysOf ps := by
          simp [keysOf] at hmem
          rcases hmem with h | h
          · exact absurd h.symm hp
          · simpa [keysOf] using h
        simp only [List.map_cons, if_neg hp, dlookup]
        exact ih h2

theorem dlookup_map_overwrite_ne {α : Type} (ps : List (String × α)) (kv : String × α)
    (k : String) (h : k ≠ kv.1) :
    dlookup k (ps.map (fun p => if p.1 = kv.1 then kv else p)) = dlookup k ps := by
  induction ps with
  | nil => rfl
  | cons p ps ih =>
      by_cases hp : p.1 = kv.1
      · have hpk : p.1 ≠ k := fun he => h (he.symm.trans hp)
        have hkvk : kv.1 ≠ k := fun he => h he.symm
        simp only [List.map_cons, if_pos hp, dlookup, if_neg hkvk, if_neg hpk]
        exact ih
      · simp only [List.map_cons, if_neg hp, dlookup]
        by_cases hpk : p.1 = k
        · rw [if_pos hpk, if_pos hpk]
        · rw [if_neg hpk, if_neg hpk]
          exact ih

theorem dlookup_pyInsert_self {α : Type} (d : Dict α) (kv : String × α) :
    dlookup kv.1 (pyInsert d kv) = some kv.2 := by
  unfold pyInsert
  split
  · rename_i hmem
    exact dlookup_map_overwrite d kv hmem
  · rename_i hmem
    rw [dlookup_append, dlookup_eq_none_of_not_mem d kv.1 hmem]
    simp [dlookup]

theorem dlookup_pyInsert_ne {α : Type} (d : Dict α) (kv : String × α) (k : String)
    (h : k ≠ kv.1) : dlookup k (pyInsert d kv) = dlookup k d := by
  unfold pyInsert
  split
  · exact dlookup_map_overwrite_ne d kv k h
  · rw [dlookup_append]
    cases hv : dlookup k d with
    | some v => rfl
    | none =>
        simp only [dlookup]
        rw [if_neg (fun he => h he.symm)]

theorem dlookup_pyUpdate_not_mem {α : Type} (d e : Dict α) (k : String)
    (hk : k ∉ keysOf e) : dlookup k (pyUpdate d e) = dlookup k d := by
  induction e generalizing d with
  | nil => rfl
  | cons p e2 ih =>
      have hp : k ≠ p.1 := fun he => hk (by simp [keysOf, he])
      have h2 : k ∉ keysOf e2 := fun hc => hk (by simp [keysOf] at hc ⊢; exact Or.inr hc)
      show dlookup k (pyUpdate (pyInsert d p) e2) = dlookup k d
      rw [ih _ h2, dlookup_pyInsert_ne d p k hp]

/-- C3 (amended): the merge `vcf_info_dict.update(generated)` used at every
step of `populate_info_dict` (src lines 170, 198, 209, 219, 229, 230) has no
failure path: when a generated name already exists in the accumulating
dictionary, whatever description it previously held, after the update the
entry silently carries the generated description (the lookup agrees with the
generated entries alone), and synthesis proceeds. -/
theorem C3_update_overwrites_colliding_name (d e : Dict String) (k : String)
    (hk : k ∈ keysOf e) (hn : (keysOf e).Nodup) :
    dlookup k (pyUpdate d e) = dlookup k e := by
  induction e generalizing d with
  | nil => simp [keysOf] at hk
  | cons p e2 ih =>
      show dlookup k (pyUpdate (pyInsert d p) e2) = dlookup k (p :: e2)
      rw [show keysOf (p :: e2) = p.1 :: keysOf e2 from rfl, List.nodup_cons] at hn
      by_cases hke : k ∈ keysOf e2
      · have hpk : p.1 ≠ k := fun he => hn.1 (he ▸ hke)
        rw [ih _ hke hn.2]
        simp [dlookup, hpk]
      · have hkp : k = p.1 := by
          rw [show keysOf (p :: e2) = p.1 :: keysOf e2 from rfl, List.mem_cons] at hk
          rcases hk with h | h
          · exact h
          · exact absurd h hke
        rw [dlookup_pyUpdate_not_mem _ _ _ hke, hkp, dlookup_pyInsert_self]
        simp [dlookup]

theorem C3_update_overwrites_colliding_name_witness :
    ("AC-raw" ∈ keysOf genC3) ∧ (keysOf genC3).Nodup ∧
      dlookup ("AC-raw") (pyUpdate ([("AC-raw", "ORIGINAL DESCRIPTION")]) genC3)
        = dlookup ("AC-raw") genC3 :=
  ⟨by decide, by decide,
    C3_update_overwrites_colliding_name ([("AC-raw", "ORIGINAL DESCRIPTION")]) genC3
      ("AC-raw") (by decide) (by decide)⟩

/-- C2 counterexample: header and flattened record built from the same tiny
taxonomies and annotation model do not share their info key sets: the record
keeps the _adj-qualified frequency key produced by the unfurler while the
header only carries its stripped form, leaving an orphan on each side. -/
theorem C2_roundtrip_counterexample :
    ("AC-afr_adj" ∈ keysOf recordC2 ∧ "AC-afr_adj" ∉ keysOf headerC2) ∧
      ("AC-afr" ∈ keysOf headerC2 ∧ "AC-afr" ∉ keysOf recordC2) := by
  exact ⟨⟨by decide, by decide⟩, ⟨by decide, by decide⟩⟩

theorem mem_keys_strip_fold (l acc : Dict String) (k : String) :
    k ∈ keysOf (l.foldl (fun acc p => pyInsert acc (stripAdj p.1, p.2)) acc)
      ↔ k ∈ keysOf acc ∨ ∃ k0 ∈ keysOf l, stripAdj k0 = k := by
  induction l generalizing acc with
  | nil => simp [keysOf]
  | cons p l ih =>
      rw [List.foldl_cons, ih, mem_keysOf_pyInsert_iff]
      constructor
      · rintro ((h | h) | h)
        · exact Or.inl h
        · exact Or.inr ⟨p.1, by simp [keysOf], h.symm⟩
        · obtain ⟨k0, hk0, hs⟩ := h
          refine Or.inr ⟨k0, ?_, hs⟩
          rw [show keysOf (p :: l) = p.1 :: keysOf l from rfl, List.mem_cons]
          exact Or.inr hk0
      · rintro (h | ⟨k0, hk0, hs⟩)
        · exact Or.inl (Or.inl h)
        · rw [show keysOf (p :: l) = p.1 :: keysOf l from rfl, List.mem_cons] at hk0
          rcases hk0 with h | h
          · refine Or.inl (Or.inr ?_)
            rw [h] at hs
            exact hs.symm
          · exact Or.inr ⟨k0, h, hs⟩

/-- C2 (amended): there is no key round-trip between header and record. The
header's info keys are exactly the _adj-stripped images of the synthesized
info-dict keys (the rename of src lines 432-434 runs on the header side
only), while the record's info keys keep their _adj qualifiers, so the two
sets differ as soon as any stratum label carries the qualifier. -/
theorem C2_header_keys_are_stripped_images (d : Dict String) (k : String) :
    k ∈ keysOf (new_vcf_info_dict d) ↔ ∃ k0 ∈ keysOf d, stripAdj k0 = k := by
  unfold new_vcf_info_dict
  rw [mem_keys_strip_fold]
  simp [keysOf]

theorem C2_header_keys_are_stripped_images_witness :
    "AC-afr" ∈ keysOf (new_vcf_info_dict ([("AC-afr_adj", "x")])) :=
  (C2_header_keys_are_stripped_images ([("AC-afr_adj", "x")]) ("AC-afr")).mpr
    ⟨"AC-afr_adj", by decide, by decide⟩

theorem dlookup_map_setMissing (P : String → Bool) (k : String) (l : Dict Value)
    (hP : P k = true) :
    dlookup k (l.map (fun p => if P p.1 then (p.1, Value.missing) else p))
      = (dlookup k l).map (fun _ => Value.missing) := by
  induction l with
  | nil => rfl
  | cons p l ih =>
      by_cases hpk : p.1 = k
      · have hPp : P p.1 = true := by rw [hpk]; exact hP
        simp [dlookup, hpk, hPp, hP]
      · by_cases hPp : P p.1 = true
        · simp only [List.map_cons, if_pos hPp, dlookup, if_neg hpk]
          exact ih
        · simp only [List.map_cons, if_neg hPp, dlookup, if_neg hpk]
          exact ih

/-- C6: the sex-chromosome normalization runs on the record the unfurler
produced (src line 412 follows lines 406-411): on a Y-chromosome row every
field of a female-labelled stratum reads as missing afterwards whenever it
was present, regardless of its pre-normalization value, while on a row whose
locus is on neither sex chromosome the record is exactly the one the
unfurler produced. -/
theorem set_female_y_lookup (r : Row) (hY : r.locus.contig = "chrY") (k : String)
    (hk : isFemaleMetricKey k = true) :
    dlookup k (set_female_y_metrics_to_na r).info
      = (dlookup k r.info).map (fun _ => Value.missing) := by
  unfold set_female_y_metrics_to_na
  rw [if_pos hY]
  exact dlookup_map_setMissing _ k _ hk

theorem set_female_y_frame (r : Row) (hY : r.locus.contig ≠ "chrY") :
    set_female_y_metrics_to_na r = r := by
  unfold set_female_y_metrics_to_na
  rw [if_neg hY]

theorem vcfPreparedRow_locus (g : VcfFieldGlobals) (t : SiteModel)
    (pops : List (String × String)) : (vcfPreparedRow g t pops).locus = t.locus := rfl

/-- C6: the sex-chromosome normalization runs on the record the unfurler
produced (src line 412 follows lines 406-411): on a Y-chromosome row every
field of a female-labelled stratum reads as missing afterwards whenever it
was present, regardless of its pre-normalization value, while on a row whose
locus is on neither sex chromosome the record is exactly the one the
unfurler produced. -/
theorem C6_female_y_normalization (g : VcfFieldGlobals) (t : SiteModel)
    (pops : List (String × String)) :
    (t.locus.contig = "chrY" → ∀ k, isFemaleMetricKey k = true →
        dlookup k (vcfNormalizedRow g t pops).info
          = (dlookup k (vcfPreparedRow g t pops).info).map (fun _ => Value.missing)) ∧
      (t.locus.contig ≠ "chrX" → t.locus.contig ≠ "chrY" →
        vcfNormalizedRow g t pops = vcfPreparedRow g t pops) := by
  constructor
  · intro hY k hk
    apply set_female_y_lookup (vcfPreparedRow g t pops) _ k hk
    rw [vcfPreparedRow_locus]
    exact hY
  · intro _ hY
    apply set_female_y_frame
    rw [vcfPreparedRow_locus]
    exact hY

theorem C6_female_y_normalization_witness :
    dlookup ("AC-afr_XX_adj") (vcfNormalizedRow gEmpty tYrow []).info = some Value.missing ∧
      dlookup ("AC-afr_XX_adj") (vcfPreparedRow gEmpty tYrow []).info = some (Value.int 10) ∧
      vcfNormalizedRow gEmpty tAutoRow [] = vcfPreparedRow gEmpty tAutoRow [] := by
  refine ⟨?_, by decide, ?_⟩
  · rw [(C6_female_y_normalization gEmpty tYrow []).1 rfl ("AC-afr_XX_adj") (by decide)]
    decide
  · exact (C6_female_y_normalization gEmpty tAutoRow []).2 (by decide) (by decide)

theorem sapp_left_cancel {p a b : String} (h : p ++ a = p ++ b) : a = b := by
  have h2 := congrArg String.data h
  rw [sapp_data, sapp_data] at h2
  exact congrArg String.mk (List.append_cancel_left h2)

theorem metricTag_AC (k : String) : metricTag ("AC-" ++ k) = 0 := by cases k; rfl

theorem metricTag_AN (k : String) : metricTag ("AN-" ++ k) = 1 := by cases k; rfl

theorem metricTag_AF (k : String) : metricTag ("AF-" ++ k) = 2 := by cases k; rfl

theorem metricTag_Nh (k : String) : metricTag ("nhomalt-" ++ k) = 3 := by cases k; rfl

theorem isFreqKey_keyAC (k : String) : isFreqKey ("AC-" ++ k) = true := by cases k; rfl

theorem isFreqKey_keyAN (k : String) : isFreqKey ("AN-" ++ k) = true := by cases k; rfl

theorem isFreqKey_keyAF (k : String) : isFreqKey ("AF-" ++ k) = true := by cases k; rfl

theorem isFreqKey_keyNh (k : String) : isFreqKey ("nhomalt-" ++ k) = true := by cases k; rfl

theorem isFreqKey_faf95 (k : String) : isFreqKey ("faf95-" ++ k) = false := by cases k; rfl

theorem isFreqKey_faf99 (k : String) : isFreqKey ("faf99-" ++ k) = false := by cases k; rfl

theorem isFafKey_faf95 (k : String) : isFafKey ("faf95-" ++ k) = true := by cases k; rfl

theorem isFafKey_faf99 (k : String) : isFafKey ("faf99-" ++ k) = true := by cases k; rfl

theorem freq_combo_keys (t : AnnModel) (k : String) (i : Nat) :
    keysOf (freq_combo_dict t k i)
      = ["AC-" ++ k, "AN-" ++ k, "AF-" ++ k, "nhomalt-" ++ k] := rfl

theorem freq_combo_keys_nodup (t : AnnModel) (k : String) (i : Nat) :
    (keysOf (freq_combo_dict t k i)).Nodup := by
  rw [freq_combo_keys]
  apply List.Nodup.of_map metricTag
  rw [show (["AC-" ++ k, "AN-" ++ k, "AF-" ++ k, "nhomalt-" ++ k].map metricTag)
      = [0, 1, 2, 3] from by
    simp [metricTag_AC, metricTag_AN, metricTag_AF, metricTag_Nh]]
  decide

theorem freq_combo_keys_disjoint (t t2 : AnnModel) (k k2 : String) (i i2 : Nat)
    (hk : k ≠ k2) :
    ∀ x ∈ keysOf (freq_combo_dict t k i), x ∉ keysOf (freq_combo_dict t2 k2 i2) := by
  intro x hx hmem
  rw [freq_combo_keys] at hx hmem
  simp only [List.mem_cons, List.mem_singleton, List.not_mem_nil, or_false] at hx hmem
  rcases hx with h1 | h1 | h1 | h1 <;> rcases hmem with h2 | h2 | h2 | h2 <;>
    rw [h1] at h2 <;>
    first
      | exact hk (sapp_left_cancel h2)
      | (have h3 := congrArg metricTag h2
         simp only [metricTag_AC, metricTag_AN, metricTag_AF, metricTag_Nh] at h3
         omega)

theorem pyInsert_fresh {α : Type} (d : Dict α) (kv : String × α)
    (h : kv.1 ∉ keysOf d) : pyInsert d kv = d ++ [kv] := by
  unfold pyInsert
  rw [if_neg h]

theorem keysOf_append {α : Type} (d e : Dict α) :
    keysOf (d ++ e) = keysOf d ++ keysOf e := by
  simp [keysOf]

theorem pyUpdate_fresh {α : Type} (d e : Dict α) (he : ∀ p ∈ e, p.1 ∉ keysOf d)
    (hn : (keysOf e).Nodup) : pyUpdate d e = d ++ e := by
  induction e generalizing d with
  | nil => simp [pyUpdate]
  | cons kv e2 ih =>
      rw [show keysOf (kv :: e2) = kv.1 :: keysOf e2 from rfl, List.nodup_cons] at hn
      show List.foldl pyInsert (pyInsert d kv) e2 = d ++ kv :: e2
      rw [pyInsert_fresh d kv (he kv (List.mem_cons_self kv e2))]
      have h2 : List.foldl pyInsert (d ++ [kv]) e2 = (d ++ [kv]) ++ e2 := by
        apply ih
        · intro p hp
          rw [keysOf_append, List.mem_append]
          push_neg
          constructor
          · exact he p (List.mem_cons_of_mem _ hp)
          · have hpe2 : p.1 ∈ keysOf e2 := List.mem_map_of_mem Prod.fst hp
            simp only [keysOf, List.map_cons, List.map_nil, List.mem_singleton]
            exact fun heq => hn.1 (heq ▸ hpe2)
        · exact hn.2
      rw [h2]
      simp

theorem freq_fold_flat (t : AnnModel) (l : List (String × Nat)) (d : Dict Value)
    (hn : (keysOf l).Nodup)
    (hfresh : ∀ ki ∈ l, ∀ x ∈ keysOf (freq_combo_dict t ki.1 ki.2), x ∉ keysOf d) :
    l.foldl (fun d2 ki => pyUpdate d2 (freq_combo_dict t ki.1 ki.2)) d
      = d ++ l.flatMap (fun ki => freq_combo_dict t ki.1 ki.2) := by
  induction l generalizing d with
  | nil => simp
  | cons ki l2 ih =>
      rw [show keysOf (ki :: l2) = ki.1 :: keysOf l2 from rfl, List.nodup_cons] at hn
      rw [List.foldl_cons,
        pyUpdate_fresh d _
          (fun p hp => hfresh ki (List.mem_cons_self _ _) p.1 (List.mem_map_of_mem Prod.fst hp))
          (freq_combo_keys_nodup t ki.1 ki.2)]
      rw [ih (d ++ freq_combo_dict t ki.1 ki.2) hn.2 ?_]
      · simp [List.flatMap_cons]
      · intro ki2 h2 x hx
        rw [keysOf_append, List.mem_append]
        push_neg
        constructor
        · exact hfresh ki2 (List.mem_cons_of_mem _ h2) x hx
        · have hne : ki2.1 ≠ ki.1 := by
            intro heq
            exact hn.1 (heq ▸ List.mem_map_of_mem Prod.fst h2)
          exact freq_combo_keys_disjoint t t ki2.1 ki.1 ki2.2 ki.2 hne x hx

theorem filter_map_overwrite_notP {α : Type} (P : String → Bool)
    (ps : List (String × α)) (kv : String × α) (h : P kv.1 = false) :
    (ps.map (fun p => if p.1 = kv.1 then kv else p)).filter (fun p => P p.1)
      = ps.filter (fun p => P p.1) := by
  induction ps with
  | nil => rfl
  | cons p ps ih =>
      by_cases hp : p.1 = kv.1
      · have hPp : P p.1 = false := by rw [hp]; exact h
        simp only [List.map_cons, if_pos hp, List.filter_cons, h, hPp, Bool.false_eq_true,
          if_false]
        exact ih
      · simp only [List.map_cons, if_neg hp, List.filter_cons]
        cases hPp : P p.1
        · simp only [Bool.false_eq_true, if_false]
          exact ih
        · simp only [if_true]
          rw [ih]

theorem filter_pyInsert_notP {α : Type} (P : String → Bool) (d : Dict α)
    (kv : String × α) (h : P kv.1 = false) :
    (pyInsert d kv).filter (fun p => P p.1) = d.filter (fun p => P p.1) := by
  unfold pyInsert
  split
  · exact filter_map_overwrite_notP P d kv h
  · rw [List.filter_append]
    simp [List.filter_cons, h]

theorem filter_pyUpdate_notP {α : Type} (P : String → Bool) (d e : Dict α)
    (h : ∀ p ∈ e, P p.1 = false) :
    (pyUpdate d e).filter (fun p => P p.1) = d.filter (fun p => P p.1) := by
  induction e generalizing d with
  | nil => rfl
  | cons kv e2 ih =>
      show (pyUpdate (pyInsert d kv) e2).filter _ = _
      rw [ih _ (fun p hp => h p (List.mem_cons_of_mem _ hp)),
        filter_pyInsert_notP P d kv (h kv (List.mem_cons_self _ _))]

theorem faf_combo_keys_not_freq (t : AnnModel) (ki : String × Nat) :
    ∀ p ∈ faf_combo_dict t ki.1 ki.2, isFreqKey p.1 = false := by
  intro p hp
  simp only [faf_combo_dict, List.mem_cons, List.mem_singleton, List.not_mem_nil,
    or_false] at hp
  rcases hp with h | h <;> rw [h]
  · exact isFreqKey_faf95 ki.1
  · exact isFreqKey_faf99 ki.1

theorem filter_faf_fold_notFreq (t : AnnModel) (l : List (String × Nat)) (d : Dict Value) :
    ((l.foldl (fun d2 ki => pyUpdate d2 (faf_combo_dict t ki.1 ki.2)) d).filter
        (fun p => isFreqKey p.1))
      = d.filter (fun p => isFreqKey p.1) := by
  induction l generalizing d with
  | nil => rfl
  | cons ki l2 ih =>
      rw [List.foldl_cons, ih, filter_pyUpdate_notP _ _ _ (faf_combo_keys_not_freq t ki)]

theorem popmax_keys_not_freq (t : AnnModel) :
    ∀ p ∈ popmax_combo_dict t, isFreqKey p.1 = false := by
  intro p hp
  simp only [popmax_combo_dict, List.mem_cons, List.not_mem_nil, or_false] at hp
  rcases hp with h | h | h | h | h <;> rw [h] <;> rfl

theorem age_keys_not_freq (t : AnnModel) :
    ∀ p ∈ age_hist_dict t, isFreqKey p.1 = false := by
  intro p hp
  simp only [age_hist_dict, List.mem_cons, List.not_mem_nil, or_false] at hp
  rcases hp with h | h | h | h | h | h | h | h <;> rw [h] <;> rfl

theorem filter_freq_flat (t : AnnModel) (l : List (String × Nat)) :
    (l.flatMap (fun ki => freq_combo_dict t ki.1 ki.2)).filter (fun p => isFreqKey p.1)
      = l.flatMap (fun ki => freq_combo_dict t ki.1 ki.2) := by
  induction l with
  | nil => rfl
  | cons ki l2 ih =>
      rw [List.flatMap_cons, List.filter_append, ih]
      congr 1

/-- C5: for every frequency index mapping with distinct labels, the
frequency-derived part of the unfurled record is exactly the four fields
AC-, AN-, AF-, nhomalt- per mapping label, each read from the freq array at
the mapped position, and nothing else in the unfurled record is
frequency-derived. -/
theorem C5_unfurl_emits_exactly_four_freq_fields (t : AnnModel)
    (pops : List (String × String)) (hn : (keysOf t.freq_index_dict).Nodup) :
    (unfurl_nested_annotations t pops).filter (fun p => isFreqKey p.1)
      = t.freq_index_dict.flatMap (fun ki => freq_combo_dict t ki.1 ki.2) := by
  show (pyUpdate (pyUpdate
      (t.faf_index_dict.foldl (fun d ki => pyUpdate d (faf_combo_dict t ki.1 ki.2))
        (t.freq_index_dict.foldl (fun d ki => pyUpdate d (freq_combo_dict t ki.1 ki.2)) []))
      (popmax_combo_dict t)) (age_hist_dict t)).filter (fun p => isFreqKey p.1) = _
  rw [filter_pyUpdate_notP _ _ _ (age_keys_not_freq t),
    filter_pyUpdate_notP _ _ _ (popmax_keys_not_freq t),
    filter_faf_fold_notFreq,
    freq_fold_flat t _ [] hn (by intro ki _ x _ hc; simp [keysOf] at hc),
    List.nil_append]
  exact filter_freq_flat t _

theorem C5_unfurl_emits_exactly_four_freq_fields_witness :
    (keysOf tExample.freq_index_dict).Nodup ∧
      (unfurl_nested_annotations tExample []).filter (fun p => isFreqKey p.1)
        = tExample.freq_index_dict.flatMap (fun ki => freq_combo_dict tExample ki.1 ki.2) :=
  ⟨by decide, C5_unfurl_emits_exactly_four_freq_fields tExample [] (by decide)⟩

theorem stratum_keys_freq_fold (t : AnnModel) (l : List (String × Nat)) (d : Dict Value)
    (hd : ∀ x ∈ keysOf d, isStratumKey x = true) :
    ∀ x ∈ keysOf (l.foldl (fun d2 ki => pyUpdate d2 (freq_combo_dict t ki.1 ki.2)) d),
      isStratumKey x = true := by
  apply foldl_preserves (fun d2 => ∀ x ∈ keysOf d2, isStratumKey x = true)
  · intro d2 ki hP x hx
    rcases mem_keysOf_pyUpdate_elim _ _ hx with h | h
    · exact hP x h
    · rw [freq_combo_keys] at h
      simp only [List.mem_cons, List.mem_singleton, List.not_mem_nil, or_false] at h
      rcases h with h | h | h | h <;> rw [h] <;> unfold isStratumKey
      · rw [isFreqKey_keyAC]
        rfl
      · rw [isFreqKey_keyAN]
        rfl
      · rw [isFreqKey_keyAF]
        rfl
      · rw [isFreqKey_keyNh]
        rfl
  · exact hd

theorem stratum_keys_faf_fold (t : AnnModel) (l : List (String × Nat)) (d : Dict Value)
    (hd : ∀ x ∈ keysOf d, isStratumKey x = true) :
    ∀ x ∈ keysOf (l.foldl (fun d2 ki => pyUpdate d2 (faf_combo_dict t ki.1 ki.2)) d),
      isStratumKey x = true := by
  apply foldl_preserves (fun d2 => ∀ x ∈ keysOf d2, isStratumKey x = true)
  · intro d2 ki hP x hx
    rcases mem_keysOf_pyUpdate_elim _ _ hx with h | h
    · exact hP x h
    · rw [show keysOf (faf_combo_dict t ki.1 ki.2)
          = ["faf95-" ++ ki.1, "faf99-" ++ ki.1] from rfl] at h
      simp only [List.mem_cons, List.mem_singleton, List.not_mem_nil, or_false] at h
      rcases h with h | h <;> rw [h] <;> unfold isStratumKey
      · rw [isFafKey_faf95]
        simp
      · rw [isFafKey_faf99]
        simp
  · exact hd

theorem popmax_names_not_stratum :
    ∀ s ∈ popmaxNames, isStratumKey s = false := by
  intro s hs
  fin_cases hs <;> rfl

theorem popmax_combo_keys (t : AnnModel) :
    keysOf (popmax_combo_dict t) = popmaxNames := rfl

theorem age_keys_not_popmax (t : AnnModel) :
    ∀ p ∈ age_hist_dict t, isPopmaxName p.1 = false := by
  intro p hp
  simp only [age_hist_dict, List.mem_cons, List.not_mem_nil, or_false] at hp
  rcases hp with h | h | h | h | h | h | h | h <;> rw [h] <;> rfl

theorem filter_popmax_self (t : AnnModel) :
    (popmax_combo_dict t).filter (fun p => isPopmaxName p.1)
      = popmax_combo_dict t := rfl

/-- C7: the unfurler emits exactly the five popmax-derived flat fields
popmax, AC_popmax, AN_popmax, AF_popmax, nhomalt_popmax, copied from the
popmax summary struct (src lines 330-336), and this five-name set is
disjoint from every per-population stratum field (the dash-prefixed
frequency and faf keys). -/
theorem C7_unfurl_popmax_fields (t : AnnModel) (pops : List (String × String)) :
    (unfurl_nested_annotations t pops).filter (fun p => isPopmaxName p.1)
        = popmax_combo_dict t ∧
      (∀ k, k ∈ popmaxNames → isStratumKey k = false) := by
  constructor
  · show (pyUpdate (pyUpdate
        (t.faf_index_dict.foldl (fun d ki => pyUpdate d (faf_combo_dict t ki.1 ki.2))
          (t.freq_index_dict.foldl (fun d ki => pyUpdate d (freq_combo_dict t ki.1 ki.2)) []))
        (popmax_combo_dict t)) (age_hist_dict t)).filter
          (fun p => isPopmaxName p.1) = _
    rw [filter_pyUpdate_notP _ _ _ (age_keys_not_popmax t)]
    have hS : ∀ x ∈ keysOf
        (t.faf_index_dict.foldl (fun d ki => pyUpdate d (faf_combo_dict t ki.1 ki.2))
          (t.freq_index_dict.foldl (fun d ki => pyUpdate d (freq_combo_dict t ki.1 ki.2)) [])),
        isStratumKey x = true := by
      apply stratum_keys_faf_fold
      apply stratum_keys_freq_fold
      intro x hx
      simp [keysOf] at hx
    rw [pyUpdate_fresh _ (popmax_combo_dict t) ?_ ?_]
    · rw [List.filter_append, filter_popmax_self]
      rw [List.filter_eq_nil_iff.mpr ?_]
      · rw [List.nil_append]
      · intro p hp hc
        have h1 := hS p.1 (List.mem_map_of_mem Prod.fst hp)
        have h2 : p.1 ∈ popmaxNames := of_decide_eq_true hc
        rw [popmax_names_not_stratum p.1 h2] at h1
        exact Bool.false_ne_true h1
    · intro p hp hmem
      have h1 := hS p.1 hmem
      have h2 : p.1 ∈ popmaxNames := by
        rw [← popmax_combo_keys t]
        exact List.mem_map_of_mem Prod.fst hp
      rw [popmax_names_not_stratum p.1 h2] at h1
      exact Bool.false_ne_true h1
    · rw [popmax_combo_keys]
      decide
  · intro k hk
    exact popmax_names_not_stratum k hk

theorem C7_unfurl_popmax_fields_witness :
    (unfurl_nested_annotations tExample []).filter (fun p => isPopmaxName p.1)
        = popmax_combo_dict tExample ∧
      ("popmax" ∈ popmaxNames ∧ isStratumKey ("popmax") = false) :=
  ⟨(C7_unfurl_popmax_fields tExample []).1,
    by decide, (C7_unfurl_popmax_fields tExample []).2 ("popmax") (by decide)⟩

end GnomadQc
